import Mathlib

/-!
Verification of the local interaction-history store of the Vipaii study
assistant (src/unnamed/part_000, the `App` component).

The store logic lives in four places of the source:
  * `saveToHistory` (lines 46-57): builds a `HistoryItem` from the analysis
    result, the prompt and the optional file name, prepends it to the
    in-memory `history` list and rewrites the persisted blob under the fixed
    key `vipaii_history` via `localStorage.setItem(..., JSON.stringify(...))`;
  * `deleteHistoryItem` (lines 59-64): filters the list by
    `item.id !== id` and rewrites the blob;
  * the mount effect (lines 25-34): reads the blob, `JSON.parse`s it inside
    a `try`/`catch`, and leaves the initial `[]` in place on absence or on a
    parse failure;
  * `handleAnalysis` (lines 101-120): rejects an empty request, otherwise
    calls the external `analyzeContent` client and, on success, performs
    exactly one `saveToHistory`.

Modelling decisions, shared by all definitions below:
  * `Date.now()` is an explicit `now : Nat` argument (milliseconds since
    epoch); `Date.now().toString()` is `Nat.repr now`, the decimal digits.
  * `localStorage` is the single value stored under the fixed key, an
    `Option String` (`none` = key absent).  A write is an oracle
    `write : String → Except ε Unit`: `.ok` means the value is stored
    whole, `.error e` means the write threw (e.g. quota exceeded) and the
    stored value is unchanged (browser writes are all-or-nothing).
  * JS exceptions are `Except`; a store operation's outcome records the
    exception it lets escape, if any, in a `thrown` field.  In the source
    `setHistory(updated)` runs before `localStorage.setItem`, so the
    in-memory list is updated even when the write throws.
  * `JSON.stringify`/`JSON.parse` are platform builtins, not repository
    code; they are modelled by the executable codec
    `encodeHistory`/`decodeHistory` below, which has the property the
    source relies on: decoding an encoded history gives it back exactly.
    The source applies no shape validation after `JSON.parse`; text that is
    valid JSON of the wrong shape is outside this model (spec §9 notes the
    same ambiguity).
-/

/-- One titled section of a structured explanation.  Modelled from the spec
(§3) and from the rendering code (source lines 370-385), which reads
`item.title` and `item.content`; the `types` module itself is not under
`src/`. -/
structure ExplanationSection where
  title : String
  content : String
deriving DecidableEq, Repr

/-- The `explanation` field is either a plain string or an array of titled
sections: the renderer branches on `Array.isArray(result.explanation)`
(source line 370).  Modelled as the tagged variant the spec (§9) asks
for. -/
inductive Explanation where
  | plain (text : String)
  | sectioned (sections : List ExplanationSection)
deriving DecidableEq, Repr

/-- The structured output of an analysis request.  Modelled from the spec
(§3) and the renderer, which reads `summary`, `keywords`, `explanation`
and `examples` (source lines 343, 354, 370, 395); the `types` module is
not under `src/`. -/
structure AnalysisResult where
  summary : String
  keywords : List String
  explanation : Explanation
  examples : List String
deriving DecidableEq, Repr

/-- One persisted record of a past interaction, exactly the object literal
built in `saveToHistory` (source lines 47-53): `id`, `timestamp`, `prompt`,
optional `fileName`, `result`. -/
structure HistoryItem where
  id : String
  timestamp : Nat
  prompt : String
  fileName : Option String
  result : AnalysisResult
deriving DecidableEq, Repr

/-- A user-selected file as delivered by `handleFileChange` (source lines
87-93): base64 `data`, `mimeType`, display `name`. -/
structure UploadedFile where
  data : String
  mimeType : String
  name : String
deriving DecidableEq, Repr

/-- JS truthiness of an optional string: `undefined` and `""` are falsy.
Used for the source's `f ? ... : ...` test on an optional string. -/
def jsTruthyStr : Option String → Bool
  | none => false
  | some s => s ≠ ""

/-- The source's `x || null` on an optional string (`file?.data || null`,
source line 111): an empty string collapses to null. -/
def jsStrOrNull : Option String → Option String
  | none => none
  | some s => if s = "" then none else some s

/-- The `HistoryItem` literal of `saveToHistory` (source lines 47-53):
`id: Date.now().toString()`, `timestamp: Date.now()`,
`prompt: p || (f ? "Phân tích tài liệu" : "Không tiêu đề")`,
`fileName: f`, `result: res`.  `p || d` yields `d` exactly when `p` is the
empty string. -/
def mkHistoryItem (now : Nat) (res : AnalysisResult) (p : String)
    (f : Option String) : HistoryItem :=
  { id := Nat.repr now
    timestamp := now
    prompt :=
      if p = "" then
        if jsTruthyStr f then "Phân tích tài liệu" else "Không tiêu đề"
      else p
    fileName := f
    result := res }

/-! ## The persistence codec

`JSON.stringify`/`JSON.parse` are modelled by an executable text codec.
Every field is length-prefixed (the length in unary, closed by `#`), so the
decoder is a total function and decoding an encoded value is exact. -/

/-- Encode a length: `n` in unary (`1` repeated), closed by `#`. -/
def encNat (n : Nat) : List Char :=
  List.replicate n '1' ++ ['#']

/-- Decode a unary length; returns the value and the rest of the input. -/
def decNat : List Char → Option (Nat × List Char)
  | [] => none
  | c :: rest =>
    if c = '#' then some (0, rest)
    else if c = '1' then
      match decNat rest with
      | some (n, r) => some (n + 1, r)
      | none => none
    else none

/-- Encode a string: its length, then its characters verbatim. -/
def encStr (s : String) : List Char :=
  encNat s.length ++ s.data

/-- Decode a length-prefixed string. -/
def decStr (l : List Char) : Option (String × List Char) :=
  match decNat l with
  | some (n, r) =>
    if n ≤ r.length then some (String.mk (r.take n), r.drop n) else none
  | none => none

/-- Encode an optional string: tag `N` for absent, `S` plus the string. -/
def encOptStr : Option String → List Char
  | none => ['N']
  | some s => 'S' :: encStr s

/-- Decode an optional string. -/
def decOptStr : List Char → Option (Option String × List Char)
  | [] => none
  | c :: r =>
    if c = 'N' then some (none, r)
    else if c = 'S' then
      match decStr r with
      | some (s, r₂) => some (some s, r₂)
      | none => none
    else none

/-- Encode a list elementwise (count first, then each element). -/
def encListAux (enc : α → List Char) : List α → List Char
  | [] => []
  | x :: xs => enc x ++ encListAux enc xs

/-- Decode exactly `n` consecutive elements. -/
def decCount (dec : List Char → Option (α × List Char)) :
    Nat → List Char → Option (List α × List Char)
  | 0, l => some ([], l)
  | n + 1, l =>
    match dec l with
    | some (a, r) =>
      match decCount dec n r with
      | some (as, r₂) => some (a :: as, r₂)
      | none => none
    | none => none

/-- Encode one explanation section (title, then content). -/
def encSection (s : ExplanationSection) : List Char :=
  encStr s.title ++ encStr s.content

/-- Decode one explanation section. -/
def decSection (l : List Char) : Option (ExplanationSection × List Char) :=
  match decStr l with
  | some (t, r) =>
    match decStr r with
    | some (c, r₂) => some (⟨t, c⟩, r₂)
    | none => none
  | none => none

/-- Encode an explanation: tag `P` for plain, `L` for a section list. -/
def encExplan : Explanation → List Char
  | .plain t => 'P' :: encStr t
  | .sectioned ss => 'L' :: encNat ss.length ++ encListAux encSection ss

/-- Decode an explanation. -/
def decExplan : List Char → Option (Explanation × List Char)
  | [] => none
  | c :: r =>
    if c = 'P' then
      match decStr r with
      | some (t, r₂) => some (.plain t, r₂)
      | none => none
    else if c = 'L' then
      match decNat r with
      | some (n, r₂) =>
        match decCount decSection n r₂ with
        | some (ss, r₃) => some (.sectioned ss, r₃)
        | none => none
      | none => none
    else none

/-- Encode an analysis result (summary, keywords, explanation, examples). -/
def encResult (res : AnalysisResult) : List Char :=
  encStr res.summary ++ (encNat res.keywords.length ++
    encListAux encStr res.keywords) ++ encExplan res.explanation ++
    (encNat res.examples.length ++ encListAux encStr res.examples)

/-- Decode an analysis result. -/
def decResult (l : List Char) : Option (AnalysisResult × List Char) :=
  match decStr l with
  | some (su, r₁) =>
    match decNat r₁ with
    | some (nk, r₂) =>
      match decCount decStr nk r₂ with
      | some (kw, r₃) =>
        match decExplan r₃ with
        | some (ex, r₄) =>
          match decNat r₄ with
          | some (ne, r₅) =>
            match decCount decStr ne r₅ with
            | some (exs, r₆) => some (⟨su, kw, ex, exs⟩, r₆)
            | none => none
          | none => none
        | none => none
      | none => none
    | none => none
  | none => none

/-- Encode one history item (id, timestamp, prompt, fileName, result). -/
def encItem (it : HistoryItem) : List Char :=
  encStr it.id ++ encNat it.timestamp ++ encStr it.prompt ++
    encOptStr it.fileName ++ encResult it.result

/-- Decode one history item. -/
def decItem (l : List Char) : Option (HistoryItem × List Char) :=
  match decStr l with
  | some (i, r₁) =>
    match decNat r₁ with
    | some (ts, r₂) =>
      match decStr r₂ with
      | some (p, r₃) =>
        match decOptStr r₃ with
        | some (f, r₄) =>
          match decResult r₄ with
          | some (res, r₅) => some (⟨i, ts, p, f, res⟩, r₅)
          | none => none
        | none => none
      | none => none
    | none => none
  | none => none

/-- The persisted blob for a history list: the model of
`JSON.stringify(updated)` (source lines 56 and 63). -/
def encodeHistory (h : List HistoryItem) : String :=
  String.mk (encNat h.length ++ encListAux encItem h)

/-- The model of `JSON.parse` applied to the blob: total, returns `none`
exactly where the source's `JSON.parse` would throw (or yield a value that
is not a history list). -/
def decodeHistory (s : String) : Option (List HistoryItem) :=
  match decNat s.data with
  | some (n, r) =>
    match decCount decItem n r with
    | some (items, rest) => if rest = [] then some items else none
    | none => none
  | none => none

/-! ## The store operations -/

/-- Outcome of a mutating store operation: the updated in-memory list, the
updated stored value, and the exception the operation let escape, if
any.  In the source `setHistory(updated)` runs before
`localStorage.setItem` (lines 55-56 and 62-63), so `history` is the updated
list in both branches. -/
structure MutationOutcome (ε : Type) where
  history : List HistoryItem
  storage : Option String
  thrown : Option ε
deriving DecidableEq, Repr

/-- `saveToHistory` (source lines 46-57): build the item, prepend it
(`[newItem, ...history]`), then rewrite the blob.  There is no
`try`/`catch` in the function: a `setItem` failure escapes to the
caller. -/
def saveToHistory (write : String → Except ε Unit) (now : Nat)
    (res : AnalysisResult) (p : String) (f : Option String)
    (history : List HistoryItem) (storage : Option String) :
    MutationOutcome ε :=
  let newItem := mkHistoryItem now res p f
  let updated := newItem :: history
  match write (encodeHistory updated) with
  | .ok _ => ⟨updated, some (encodeHistory updated), none⟩
  | .error e => ⟨updated, storage, some e⟩

/-- `deleteHistoryItem` (source lines 59-64): filter by `item.id !== id`,
then rewrite the blob.  No `try`/`catch`: a `setItem` failure escapes to
the caller. -/
def deleteHistoryItem (write : String → Except ε Unit) (id : String)
    (history : List HistoryItem) (storage : Option String) :
    MutationOutcome ε :=
  let updated := history.filter (fun item => item.id != id)
  match write (encodeHistory updated) with
  | .ok _ => ⟨updated, some (encodeHistory updated), none⟩
  | .error e => ⟨updated, storage, some e⟩

/-- The value `deleteHistoryItem` returns to its caller: the source
function's return type is `void`, so every call returns the one value
`undefined`, regardless of whether anything was removed. -/
def deleteHistoryItemReturn (_id : String) (_history : List HistoryItem) :
    Unit := ()

/-- The mount effect (source lines 25-34): read the stored value; absent
means the initial `[]` stands; present means `JSON.parse` inside
`try`/`catch`, the `catch` logging and leaving `[]` in place. -/
def loadHistory (storage : Option String) : List HistoryItem :=
  match storage with
  | none => []
  | some s =>
    match decodeHistory s with
    | some h => h
    | none => []

/-- Outcome of `handleAnalysis`: the component state it leaves behind plus
`clientCalls`, the number of `analyzeContent` invocations performed during
the call (0 or 1 in the source). -/
structure AnalysisOutcome (ε : Type) where
  history : List HistoryItem
  storage : Option String
  error : Option String
  result : Option AnalysisResult
  clientCalls : Nat
deriving Repr

/-- `handleAnalysis` (source lines 101-120).  `!prompt && !file` rejects
the empty request with the message of line 103 before anything else; the
`try` block then calls `analyzeContent(file?.data || null,
file?.mimeType || null, prompt)`, stores the result and calls
`saveToHistory(analysis, prompt, file?.name)`; the `catch` sets the
message of line 116.  A `setItem` throw inside `saveToHistory` lands in
the same `catch`, after `setResult` and `setHistory` have already run. -/
def handleAnalysis (analyze : Option String → Option String → String →
      Except ε AnalysisResult) (write : String → Except ε Unit) (now : Nat)
    (prompt : String) (file : Option UploadedFile)
    (history : List HistoryItem) (storage : Option String)
    (result₀ : Option AnalysisResult) : AnalysisOutcome ε :=
  if prompt = "" ∧ file = none then
    { history := history, storage := storage
      error := some "Vui lòng nhập nội dung hoặc tải file lên."
      result := result₀, clientCalls := 0 }
  else
    match analyze (jsStrOrNull (file.map (fun f => f.data)))
        (jsStrOrNull (file.map (fun f => f.mimeType))) prompt with
    | .ok analysis =>
      let out := saveToHistory write now analysis prompt
        (file.map (fun f => f.name)) history storage
      { history := out.history, storage := out.storage
        error :=
          match out.thrown with
          | some _ => some "Có lỗi xảy ra khi phân tích. Vui lòng thử lại."
          | none => none
        result := some analysis, clientCalls := 1 }
    | .error _ =>
      { history := history, storage := storage
        error := some "Có lỗi xảy ra khi phân tích. Vui lòng thử lại."
        result := result₀, clientCalls := 1 }

/-- One append request: the clock reading at the call and the
`saveToHistory` arguments. -/
structure AppendReq where
  now : Nat
  res : AnalysisResult
  prompt : String
  fileName : Option String
deriving DecidableEq, Repr

/-- The item an append request creates. -/
def AppendReq.item (r : AppendReq) : HistoryItem :=
  mkHistoryItem r.now r.res r.prompt r.fileName

/-- Run a sequence of appends against the in-memory list, oldest request
first; each step is the `[newItem, ...history]` of `saveToHistory`
(source line 54). -/
def runAppends (reqs : List AppendReq) (h : List HistoryItem) :
    List HistoryItem :=
  match reqs with
  | [] => h
  | r :: rs => runAppends rs (r.item :: h)

/-- Concrete JS exceptions used by witnesses and counterexamples. -/
inductive JsException where
  | quotaExceeded
  | networkFailed
deriving DecidableEq, Repr

/-- A persistence write that always succeeds. -/
def okWrite : String → Except JsException Unit := fun _ => .ok ()

/-- A persistence write that always throws (quota exceeded). -/
def failWrite : String → Except JsException Unit := fun _ =>
  .error .quotaExceeded

/-- A small concrete analysis result for witnesses. -/
def sampleResult : AnalysisResult :=
  { summary := "tóm tắt"
    keywords := ["sinh học"]
    explanation := .plain "giải thích"
    examples := ["ví dụ"] }

/-- A second concrete analysis result. -/
def sampleResult₂ : AnalysisResult :=
  { summary := "khác"
    keywords := []
    explanation := .sectioned [⟨"đề", "nội dung"⟩]
    examples := [] }

/-! ## Codec round-trip lemmas -/

theorem decNat_enc (n : Nat) (rest : List Char) :
    decNat (encNat n ++ rest) = some (n, rest) := by
  induction n with
  | zero => simp [encNat, decNat]
  | succ n ih =>
    simp only [encNat, List.replicate_succ, List.cons_append,
      List.append_assoc, List.singleton_append, List.nil_append] at ih ⊢
    simp [decNat, ih]

theorem decStr_enc (s : String) (rest : List Char) :
    decStr (encStr s ++ rest) = some (s, rest) := by
  have hlen : s.length = s.data.length := rfl
  simp only [encStr, List.append_assoc]
  simp only [decStr, decNat_enc, hlen]
  rw [if_pos (by simp)]
  simp [List.take_left, List.drop_left]

theorem decOptStr_enc (f : Option String) (rest : List Char) :
    decOptStr (encOptStr f ++ rest) = some (f, rest) := by
  cases f with
  | none => simp [encOptStr, decOptStr]
  | some s => simp [encOptStr, decOptStr, decStr_enc]

theorem decCount_enc (dec : List Char → Option (α × List Char))
    (enc : α → List Char)
    (H : ∀ x rest, dec (enc x ++ rest) = some (x, rest))
    (xs : List α) (rest : List Char) :
    decCount dec xs.length (encListAux enc xs ++ rest) = some (xs, rest) := by
  induction xs generalizing rest with
  | nil => simp [encListAux, decCount]
  | cons x xs ih =>
    simp only [encListAux, List.append_assoc, List.length_cons]
    simp [decCount, H, ih]

theorem decSection_enc (s : ExplanationSection) (rest : List Char) :
    decSection (encSection s ++ rest) = some (s, rest) := by
  simp only [encSection, List.append_assoc]
  simp [decSection, decStr_enc]

theorem decExplan_enc (e : Explanation) (rest : List Char) :
    decExplan (encExplan e ++ rest) = some (e, rest) := by
  cases e with
  | plain t => simp [encExplan, decExplan, decStr_enc]
  | sectioned ss =>
    simp only [encExplan, List.cons_append, List.append_assoc]
    simp [decExplan, decNat_enc, decCount_enc decSection encSection
      decSection_enc]

theorem decResult_enc (res : AnalysisResult) (rest : List Char) :
    decResult (encResult res ++ rest) = some (res, rest) := by
  simp only [encResult, List.append_assoc]
  simp [decResult, decStr_enc, decNat_enc, decExplan_enc,
    decCount_enc decStr encStr decStr_enc]

theorem decItem_enc (it : HistoryItem) (rest : List Char) :
    decItem (encItem it ++ rest) = some (it, rest) := by
  simp only [encItem, List.append_assoc]
  simp [decItem, decStr_enc, decNat_enc, decOptStr_enc, decResult_enc]

/-- Decoding an encoded history list is exact: the model of the fact the
source relies on, that `JSON.parse(JSON.stringify(h))` reproduces `h`. -/
theorem decodeHistory_encodeHistory (h : List HistoryItem) :
    decodeHistory (encodeHistory h) = some h := by
  have : (encodeHistory h).data = encNat h.length ++ encListAux encItem h :=
    rfl
  rw [decodeHistory, this, decNat_enc]
  have h₂ := decCount_enc decItem encItem decItem_enc h []
  rw [List.append_nil] at h₂
  simp [h₂]

/-! ## Decimal representation of the clock

`Date.now().toString()` is `Nat.repr`.  The source's id-uniqueness story
rests on distinct clock readings giving distinct decimal strings, proved
here by reading the digit string back into a number. -/

/-- Numeric value of a decimal digit character. -/
def decDigit (c : Char) : Nat := c.toNat - '0'.toNat

/-- Value of a digit string, most significant digit first. -/
def digitsVal : List Char → Nat
  | [] => 0
  | c :: cs => decDigit c * 10 ^ cs.length + digitsVal cs

theorem decDigit_digitChar : ∀ d < 10, decDigit (Nat.digitChar d) = d := by
  decide

theorem digitsVal_snoc (l : List Char) (c : Char) :
    digitsVal (l ++ [c]) = 10 * digitsVal l + decDigit c := by
  induction l with
  | nil => simp [digitsVal]
  | cons x l ih =>
    simp only [List.cons_append, digitsVal, List.append_eq, ih,
      List.length_append, List.length_cons, List.length_nil, pow_succ]
    ring

theorem toDigitsCore_acc (b fuel n : Nat) (ds : List Char) :
    Nat.toDigitsCore b fuel n ds = Nat.toDigitsCore b fuel n [] ++ ds := by
  induction fuel generalizing n ds with
  | zero => simp [Nat.toDigitsCore]
  | succ fuel ih =>
    simp only [Nat.toDigitsCore]
    by_cases h : n / b = 0
    · simp [h]
    · simp only [if_neg h]
      rw [ih (n / b) (Nat.digitChar (n % b) :: ds),
        ih (n / b) [Nat.digitChar (n % b)], List.append_assoc,
        List.singleton_append]

theorem digitsVal_toDigitsCore (fuel n : Nat) (h : n < fuel) :
    digitsVal (Nat.toDigitsCore 10 fuel n []) = n := by
  induction fuel generalizing n with
  | zero => omega
  | succ fuel ih =>
    simp only [Nat.toDigitsCore]
    by_cases h0 : n / 10 = 0
    · have hn : n < 10 := by omega
      simp [h0, digitsVal, decDigit_digitChar n hn, Nat.mod_eq_of_lt hn]
    · rw [if_neg h0, toDigitsCore_acc, digitsVal_snoc,
        ih (n / 10) (by omega),
        decDigit_digitChar (n % 10) (Nat.mod_lt n (by norm_num))]
      omega

theorem digitsVal_toDigits (n : Nat) :
    digitsVal (Nat.toDigits 10 n) = n :=
  digitsVal_toDigitsCore (n + 1) n (Nat.lt_succ_self n)

/-- Distinct naturals have distinct decimal strings. -/
theorem natRepr_injective {m n : Nat} (h : Nat.repr m = Nat.repr n) :
    m = n := by
  have hd : Nat.toDigits 10 m = Nat.toDigits 10 n := congrArg String.data h
  calc m = digitsVal (Nat.toDigits 10 m) := (digitsVal_toDigits m).symm
    _ = digitsVal (Nat.toDigits 10 n) := by rw [hd]
    _ = n := digitsVal_toDigits n

/-! ## Helper lemmas about the store operations -/

/-- The in-memory list after `saveToHistory` is the new item prepended,
whatever the write does. -/
theorem saveToHistory_history (write : String → Except ε Unit) (now : Nat)
    (res : AnalysisResult) (p : String) (f : Option String)
    (h : List HistoryItem) (st : Option String) :
    (saveToHistory write now res p f h st).history =
      mkHistoryItem now res p f :: h := by
  simp only [saveToHistory]
  cases write (encodeHistory (mkHistoryItem now res p f :: h)) <;> rfl

/-- The in-memory list after `deleteHistoryItem` is the filtered list,
whatever the write does. -/
theorem deleteHistoryItem_history (write : String → Except ε Unit)
    (id : String) (h : List HistoryItem) (st : Option String) :
    (deleteHistoryItem write id h st).history =
      h.filter (fun x => x.id != id) := by
  simp only [deleteHistoryItem]
  cases write (encodeHistory (h.filter (fun x => x.id != id))) <;> rfl

/-- A concrete item for fixtures: created at clock 0, so its id is "0". -/
def sampleItem : HistoryItem := mkHistoryItem 0 sampleResult "câu hỏi" none

/-- Fixture: an append request at millisecond 0. -/
def reqA : AppendReq := ⟨0, sampleResult, "a", none⟩

/-- Fixture: a second, different append request, also at millisecond 0. -/
def reqB : AppendReq := ⟨0, sampleResult₂, "b", none⟩

/-! ## The claims -/

/-- C1, counterexample: two appends in sequence whose `Date.now()` readings
fall in the same millisecond produce two simultaneously present items whose
`id` fields are equal (both are the decimal string of the shared clock
value), so the ids in the store are not pairwise distinct. -/
theorem sameMillisecond_id_collision :
    ¬ ((runAppends [reqA, reqB] []).map HistoryItem.id).Nodup ∧
    (runAppends [reqA, reqB] []).map HistoryItem.id = ["0", "0"] ∧
    (runAppends [reqA, reqB] []).length = 2 := by
  refine ⟨by decide, by decide, by decide⟩

/-- C1, amended: `id` is the decimal representation of the millisecond
clock reading at creation, so any two items created at distinct clock
readings have distinct ids; in particular two appends in sequence produce
items with distinct ids provided the clock advanced between the two calls
(same-millisecond appends share an id). -/
theorem appendIds_distinct_for_distinct_clocks (n₁ n₂ : Nat)
    (r₁ r₂ : AnalysisResult) (p₁ p₂ : String) (f₁ f₂ : Option String)
    (h : n₁ ≠ n₂) :
    (mkHistoryItem n₁ r₁ p₁ f₁).id ≠ (mkHistoryItem n₂ r₂ p₂ f₂).id :=
  fun he => h (natRepr_injective he)

/-- C1, witness: clock readings 0 and 1 give items with distinct ids. -/
theorem appendIds_distinct_for_distinct_clocks_witness :
    (0 : Nat) ≠ 1 ∧
    (mkHistoryItem 0 sampleResult "a" none).id ≠
      (mkHistoryItem 1 sampleResult₂ "b" none).id :=
  ⟨by decide, appendIds_distinct_for_distinct_clocks 0 1 sampleResult
    sampleResult₂ "a" "b" none none (by decide)⟩

/-- C2: each append prepends (`[newItem, ...history]`), so after any
sequence of appends the list is the new items in reverse insertion order
(most recent first) followed by the prior items unchanged; nothing is ever
re-sorted by timestamp or any other key. -/
theorem list_reverse_insertion_order :
    (∀ (ε : Type) (write : String → Except ε Unit) (now : Nat)
      (res : AnalysisResult) (p : String) (f : Option String)
      (h : List HistoryItem) (st : Option String),
      (saveToHistory write now res p f h st).history =
        mkHistoryItem now res p f :: h) ∧
    ∀ (reqs : List AppendReq) (h : List HistoryItem),
      runAppends reqs h = (reqs.map AppendReq.item).reverse ++ h := by
  refine ⟨fun ε write now res p f h st =>
    saveToHistory_history write now res p f h st, fun reqs => ?_⟩
  induction reqs with
  | nil => intro h; simp [runAppends]
  | cons r rs ih =>
    intro h
    simp [runAppends, ih, List.reverse_cons, List.append_assoc]

/-- C9, counterexample: an append with an empty prompt does not store the
prompt as given: the stored prompt is the default "Không tiêu đề" (no
file) or "Phân tích tài liệu" (with file), never the empty string. -/
theorem empty_prompt_not_stored_verbatim :
    (mkHistoryItem 0 sampleResult "" none).prompt = "Không tiêu đề" ∧
    (mkHistoryItem 0 sampleResult "" none).prompt ≠ "" ∧
    (mkHistoryItem 0 sampleResult "" (some "bài.pdf")).prompt =
      "Phân tích tài liệu" := by
  refine ⟨rfl, ?_, rfl⟩
  decide

/-- C9, amended: the created item's prompt equals the prompt argument
exactly when the argument is non-empty; an empty prompt is never stored as
passed but replaced by one of the two fixed default titles. -/
theorem prompt_stored_verbatim_iff_nonempty (now : Nat)
    (res : AnalysisResult) (p : String) (f : Option String) :
    (p ≠ "" → (mkHistoryItem now res p f).prompt = p) ∧
    (p = "" → (mkHistoryItem now res p f).prompt ≠ p ∧
      ((mkHistoryItem now res p f).prompt = "Phân tích tài liệu" ∨
        (mkHistoryItem now res p f).prompt = "Không tiêu đề")) := by
  constructor
  · intro hp
    simp [mkHistoryItem, hp]
  · intro hp
    subst hp
    have hpr : (mkHistoryItem now res "" f).prompt =
        if jsTruthyStr f then "Phân tích tài liệu" else "Không tiêu đề" :=
      rfl
    rcases Bool.dichotomy (jsTruthyStr f) with hb | hb
    · rw [hpr, hb]
      exact ⟨by decide, Or.inr (by decide)⟩
    · rw [hpr, hb]
      exact ⟨by decide, Or.inl (by decide)⟩

/-- C9, witness: a non-empty prompt is stored as given; the empty prompt
is replaced by a default. -/
theorem prompt_stored_verbatim_iff_nonempty_witness :
    (mkHistoryItem 3 sampleResult "Giải thích quang hợp" none).prompt =
      "Giải thích quang hợp" ∧
    (mkHistoryItem 3 sampleResult "" none).prompt ≠ "" :=
  ⟨(prompt_stored_verbatim_iff_nonempty 3 sampleResult
      "Giải thích quang hợp" none).1 (by decide),
   ((prompt_stored_verbatim_iff_nonempty 3 sampleResult "" none).2 rfl).1⟩

/-- C10: one `remove(id)` call deletes every item whose id equals the given
id — the filter keeps exactly the items with a different id — so duplicated
ids are all removed by a single call. -/
theorem remove_deletes_all_matching_ids (write : String → Except ε Unit)
    (id : String) (h : List HistoryItem) (st : Option String) :
    (∀ x, x ∈ (deleteHistoryItem write id h st).history ↔
      x ∈ h ∧ x.id ≠ id) ∧
    (deleteHistoryItem write id h st).history.countP
      (fun x => x.id == id) = 0 := by
  rw [deleteHistoryItem_history]
  constructor
  · intro x
    simp [List.mem_filter]
  · simp only [List.countP_eq_zero]
    intro a ha
    simp only [List.mem_filter, bne_iff_ne] at ha
    simp [ha.2]

/-- C3, counterexample: the source's remove has return type `void`; the
call that actually removes `sampleItem` and the immediately following call
on the already-emptied list return the identical (unit) value, so no
boolean telling whether an item was removed (true, then false on the
second call, as the claim states) is ever returned. -/
theorem remove_return_carries_no_boolean :
    deleteHistoryItemReturn "0" [sampleItem] =
      deleteHistoryItemReturn "0" [] ∧
    (deleteHistoryItem okWrite "0" [sampleItem] none).history = [] ∧
    (deleteHistoryItem okWrite "0" [] none).history = [] := by
  refine ⟨rfl, by decide, by decide⟩

/-- C3, amended: remove deletes the items with matching id when present,
is a silent no-op (not an error) when no item has that id, and returns no
value; after a remove the list contains no item with that id, and a second
remove with the same id leaves the list unchanged. -/
theorem remove_deletes_present_noop_absent
    (write write₂ : String → Except ε Unit) (id : String)
    (h : List HistoryItem) (st st₂ : Option String) :
    ((∀ x ∈ h, x.id ≠ id) →
      (deleteHistoryItem write id h st).history = h) ∧
    (∀ x ∈ (deleteHistoryItem write id h st).history, x.id ≠ id) ∧
    (deleteHistoryItem write₂ id
        (deleteHistoryItem write id h st).history st₂).history =
      (deleteHistoryItem write id h st).history := by
  refine ⟨?_, ?_, ?_⟩
  · intro hall
    rw [deleteHistoryItem_history]
    apply List.filter_eq_self.mpr
    intro a ha
    simp [hall a ha]
  · intro x hx
    rw [deleteHistoryItem_history] at hx
    simp only [List.mem_filter, bne_iff_ne] at hx
    exact hx.2
  · rw [deleteHistoryItem_history write₂, deleteHistoryItem_history write]
    apply List.filter_eq_self.mpr
    intro a ha
    simp only [List.mem_filter] at ha
    exact ha.2

/-- C3, witness: removing an absent id ("9") is a no-op; after removing
"0" no item with id "0" remains; a second remove of "0" changes nothing. -/
theorem remove_deletes_present_noop_absent_witness :
    (deleteHistoryItem okWrite "9" [sampleItem] none).history =
      [sampleItem] ∧
    sampleItem.id ≠ "9" ∧
    (deleteHistoryItem okWrite "0"
        (deleteHistoryItem okWrite "0" [sampleItem] none).history
        none).history =
      (deleteHistoryItem okWrite "0" [sampleItem] none).history :=
  ⟨(remove_deletes_present_noop_absent okWrite okWrite "9" [sampleItem]
      none none).1 (by decide),
   (remove_deletes_present_noop_absent okWrite okWrite "9" [sampleItem]
      none none).2.1 sampleItem (by decide),
   (remove_deletes_present_noop_absent okWrite okWrite "0" [sampleItem]
      none none).2.2⟩

/-- C4: load never lets an error escape: an absent stored value loads as
the empty list (a valid initial state), and a stored value the decoder
rejects (malformed text) loads as the empty list instead of throwing. -/
theorem load_recovers_to_empty :
    loadHistory none = [] ∧
    ∀ s, decodeHistory s = none → loadHistory (some s) = [] := by
  refine ⟨rfl, ?_⟩
  intro s hs
  simp [loadHistory, hs]

/-- C4, witness: the concrete malformed text "hỏng" decodes to nothing and
loads as the empty list; absent storage loads as the empty list. -/
theorem load_recovers_to_empty_witness :
    loadHistory none = [] ∧
    decodeHistory "hỏng" = none ∧
    loadHistory (some "hỏng") = [] :=
  ⟨load_recovers_to_empty.1, by decide,
    load_recovers_to_empty.2 "hỏng" (by decide)⟩

/-- C5: append then reload from persistence (the restart simulation)
reproduces the in-memory sequence exactly — the same items, field for
field, in the same order — whenever the persistence write succeeded. -/
theorem append_reload_roundtrip (write : String → Except ε Unit)
    (now : Nat) (res : AnalysisResult) (p : String) (f : Option String)
    (h : List HistoryItem) (st : Option String)
    (hw : write (encodeHistory (mkHistoryItem now res p f :: h)) =
      .ok ()) :
    loadHistory (saveToHistory write now res p f h st).storage =
      (saveToHistory write now res p f h st).history ∧
    (saveToHistory write now res p f h st).history =
      mkHistoryItem now res p f :: h := by
  simp only [saveToHistory, hw]
  simp [loadHistory, decodeHistory_encodeHistory]

/-- C5, witness: a concrete append over a one-item store reloads to the
identical two-item sequence. -/
theorem append_reload_roundtrip_witness :
    loadHistory (saveToHistory okWrite 5 sampleResult₂ "hỏi"
        (some "bài.pdf") [sampleItem] none).storage =
      (saveToHistory okWrite 5 sampleResult₂ "hỏi" (some "bài.pdf")
        [sampleItem] none).history :=
  (append_reload_roundtrip okWrite 5 sampleResult₂ "hỏi" (some "bài.pdf")
    [sampleItem] none rfl).1

/-- An analysis client that always succeeds with `sampleResult`. -/
def okAnalyze : Option String → Option String → String →
    Except JsException AnalysisResult := fun _ _ _ => .ok sampleResult

/-- An analysis client that always fails (network failure). -/
def failAnalyze : Option String → Option String → String →
    Except JsException AnalysisResult := fun _ _ _ =>
  .error .networkFailed

/-- C6, counterexample: with a write that throws (quota exceeded), the
exception escapes `saveToHistory` and `deleteHistoryItem` uncaught
(`thrown ≠ none`): the persistence failure is not caught inside the store
and no distinct recoverable error value is produced there. -/
theorem write_failure_escapes_store :
    (saveToHistory failWrite 0 sampleResult "câu" none [] none).thrown ≠
      none ∧
    (deleteHistoryItem failWrite "0" [sampleItem] none).thrown ≠ none := by
  refine ⟨by decide, by decide⟩

/-- C6, amended: a persistence write failure leaves the in-memory list
already updated (the new item prepended for append, the filtered list for
remove) and the stored value unchanged, but the exception escapes the
store operation unmapped; when the failing write happens inside an append
issued by `handleAnalysis`, the exception is caught there and surfaced as
the generic analysis error message, not as a distinct persistence
error. -/
theorem write_failure_updates_memory_and_escapes
    (write : String → Except ε Unit) (now : Nat) (res : AnalysisResult)
    (p : String) (f : Option String) (h : List HistoryItem)
    (st : Option String) (e : ε) (id : String)
    (analyze : Option String → Option String → String →
      Except ε AnalysisResult)
    (file : Option UploadedFile) (result₀ : Option AnalysisResult)
    (hw : write (encodeHistory (mkHistoryItem now res p f :: h)) =
      .error e)
    (hw₂ : write (encodeHistory (h.filter (fun x => x.id != id))) =
      .error e)
    (hne : ¬(p = "" ∧ file = none))
    (ha : analyze (jsStrOrNull (file.map (fun u => u.data)))
      (jsStrOrNull (file.map (fun u => u.mimeType))) p = .ok res)
    (hw₃ : write (encodeHistory
      (mkHistoryItem now res p (file.map (fun u => u.name)) :: h)) =
      .error e) :
    saveToHistory write now res p f h st =
      ⟨mkHistoryItem now res p f :: h, st, some e⟩ ∧
    deleteHistoryItem write id h st =
      ⟨h.filter (fun x => x.id != id), st, some e⟩ ∧
    handleAnalysis analyze write now p file h st result₀ =
      ⟨mkHistoryItem now res p (file.map (fun u => u.name)) :: h, st,
        some "Có lỗi xảy ra khi phân tích. Vui lòng thử lại.",
        some res, 1⟩ := by
  refine ⟨?_, ?_, ?_⟩
  · simp only [saveToHistory, hw]
  · simp only [deleteHistoryItem, hw₂]
  · simp only [handleAnalysis]
    rw [if_neg hne, ha]
    simp only [saveToHistory, hw₃]

/-- C6, witness: a concrete failing write during an append leaves the
item in memory, keeps the old blob, and lets the quota exception escape;
through `handleAnalysis` it is surfaced as the generic message. -/
theorem write_failure_updates_memory_and_escapes_witness :
    saveToHistory failWrite 7 sampleResult "câu" none [sampleItem]
        (some "blob") =
      ⟨mkHistoryItem 7 sampleResult "câu" none :: [sampleItem],
        some "blob", some JsException.quotaExceeded⟩ ∧
    handleAnalysis okAnalyze failWrite 7 "câu" none [sampleItem]
        (some "blob") none =
      ⟨mkHistoryItem 7 sampleResult "câu" none :: [sampleItem],
        some "blob",
        some "Có lỗi xảy ra khi phân tích. Vui lòng thử lại.",
        some sampleResult, 1⟩ :=
  ⟨(write_failure_updates_memory_and_escapes failWrite 7 sampleResult
      "câu" none [sampleItem] (some "blob") JsException.quotaExceeded "9"
      okAnalyze none none rfl rfl (by decide) rfl rfl).1,
   (write_failure_updates_memory_and_escapes failWrite 7 sampleResult
      "câu" none [sampleItem] (some "blob") JsException.quotaExceeded "9"
      okAnalyze none none rfl rfl (by decide) rfl rfl).2.2⟩

/-- C7: when the request is non-empty, a failed client call mutates
nothing — the list, the stored value and the displayed result are exactly
as before, only the error message is set — and a successful call is
followed by exactly one append of the new item (one client call either
way). -/
theorem analysis_failure_no_mutation_success_one_append
    (analyze : Option String → Option String → String →
      Except ε AnalysisResult)
    (write : String → Except ε Unit) (now : Nat) (p : String)
    (file : Option UploadedFile) (h : List HistoryItem)
    (st : Option String) (result₀ : Option AnalysisResult)
    (hne : ¬(p = "" ∧ file = none)) :
    (∀ e, analyze (jsStrOrNull (file.map (fun u => u.data)))
        (jsStrOrNull (file.map (fun u => u.mimeType))) p = .error e →
      handleAnalysis analyze write now p file h st result₀ =
        ⟨h, st, some "Có lỗi xảy ra khi phân tích. Vui lòng thử lại.",
          result₀, 1⟩) ∧
    (∀ res, analyze (jsStrOrNull (file.map (fun u => u.data)))
        (jsStrOrNull (file.map (fun u => u.mimeType))) p = .ok res →
      (handleAnalysis analyze write now p file h st result₀).history =
        mkHistoryItem now res p (file.map (fun u => u.name)) :: h ∧
      (handleAnalysis analyze write now p file h st result₀).result =
        some res ∧
      (handleAnalysis analyze write now p file h st
        result₀).clientCalls = 1) := by
  constructor
  · intro e he
    simp only [handleAnalysis]
    rw [if_neg hne, he]
  · intro res hr
    have hh := saveToHistory_history write now res p
      (file.map (fun u => u.name)) h st
    simp only [handleAnalysis]
    rw [if_neg hne, hr]
    exact ⟨hh, rfl, rfl⟩

/-- C7, witness: with a concrete failing client nothing changes but the
error message; with a concrete succeeding client exactly the new item is
prepended. -/
theorem analysis_failure_no_mutation_success_one_append_witness :
    handleAnalysis failAnalyze okWrite 7 "câu" none [sampleItem]
        (some "blob") (some sampleResult₂) =
      ⟨[sampleItem], some "blob",
        some "Có lỗi xảy ra khi phân tích. Vui lòng thử lại.",
        some sampleResult₂, 1⟩ ∧
    (handleAnalysis okAnalyze okWrite 7 "câu" none [sampleItem]
        (some "blob") (some sampleResult₂)).history =
      mkHistoryItem 7 sampleResult "câu" none :: [sampleItem] :=
  ⟨(analysis_failure_no_mutation_success_one_append failAnalyze okWrite 7
      "câu" none [sampleItem] (some "blob") (some sampleResult₂)
      (by decide)).1 JsException.networkFailed rfl,
   ((analysis_failure_no_mutation_success_one_append okAnalyze okWrite 7
      "câu" none [sampleItem] (some "blob") (some sampleResult₂)
      (by decide)).2 sampleResult rfl).1⟩

/-- C8: a request with an empty prompt and no file is rejected before the
client is invoked: the user-visible message is set, zero client calls are
made, and neither the list, the stored value nor the displayed result
changes. -/
theorem empty_request_rejected_before_client
    (analyze : Option String → Option String → String →
      Except ε AnalysisResult)
    (write : String → Except ε Unit) (now : Nat)
    (h : List HistoryItem) (st : Option String)
    (result₀ : Option AnalysisResult) :
    handleAnalysis analyze write now "" none h st result₀ =
      ⟨h, st, some "Vui lòng nhập nội dung hoặc tải file lên.",
        result₀, 0⟩ := by
  simp [handleAnalysis]
